import Mathlib

/-!
Verification of the herringlib process-execution core and its sibling
utilities against their natural-language specification.

Each definition below is a shallow embedding of a Python function from the
repository; the doc comment of a definition names the source file and the
function it embeds.  Strings are modelled as Lean `String`/`List Char`,
Python lists as Lean lists, `None`-or-list parameters as `Option`, and
Python dict insertion-order semantics as association lists.
-/

namespace Herringlib

/-- Python whitespace test for ASCII text: the characters matched by
`str.isspace` / the regex class `\s` that can occur in the byte strings the
shells handle (space, tab, newline, carriage return, vertical tab, form feed). -/
def pyIsSpace (c : Char) : Bool :=
  c = ' ' || c = '\t' || c = '\n' || c = '\x0d' || c = '\x0b' || c = '\x0c'

/-- The single-quote (apostrophe) character, written via its code point. -/
def squote : Char := Char.ofNat 39

/-! ## backup.py -/

/-- Embeds `os.path.basename` for POSIX paths: the part of the path after the
last slash. -/
def pyBasename (s : String) : String :=
  String.mk ((s.toList.reverse.takeWhile (fun c => c ≠ '/')).reverse)

/-- Embeds `backup_filename` (src/backup.py lines 10-22): append `~` unless the
name already ends with `~` (the test `name.endswith('~')` is modelled on the
character list so that it evaluates by kernel reduction). -/
def backup_filename (name : String) : String :=
  if name.toList.getLast? = some '~' then name else name ++ "~"

/-- A regex-literal character: one that stands for itself when interpolated
into a regex source (not one of Python `re`'s metacharacters). -/
def regexLiteralChar (c : Char) : Bool :=
  !(c ∈ ['.', '^', '$', '*', '+', '?', '{', '}', '[', ']', '(', ')', '\\', '|'])

/-- The base-name characters whose regex reading `matchAtoms` models exactly:
`.` (any character except newline) and the regex-literal characters.  Other
metacharacters (quantifiers, anchors, classes, groups) change the pattern's
shape and are outside the model; every general theorem about the scan carries
this restriction as a hypothesis on the name. -/
def modeledNameChar (c : Char) : Bool :=
  c = '.' || regexLiteralChar c

/-- Matches the interpolated file-name part of the regex
`r'{name}(\d+)~'.format(name=os.path.basename(name))` used at
src/backup.py line 43.  The base name is interpolated into the regex source
without `re.escape`, so each of its characters acts as a regex atom: `.`
matches any character except newline, and every regex-literal character
matches itself.  This equals Python's reading exactly when every character of
the base name satisfies `modeledNameChar`; the general theorems below carry
that restriction as a hypothesis.  Returns the rest of the file name after the
atoms, or `none` on mismatch. -/
def matchAtoms : List Char → List Char → Option (List Char)
  | [], rest => some rest
  | _ :: _, [] => none
  | a :: as, c :: cs =>
    if a = '.' then (if c = '\n' then none else matchAtoms as cs)
    else if a = c then matchAtoms as cs
    else none

/-- Numeric value of a digit string, as `int(match.group(1))` computes it. -/
def digitsToNat (ds : List Char) : Nat :=
  ds.foldl (fun acc c => acc * 10 + (c.toNat - '0'.toNat)) 0

/-- Embeds the per-file regex test of src/backup.py lines 43-45:
`re.match(r'{name}(\d+)~'.format(name=os.path.basename(name)), file_name)`,
returning `int(match.group(1))` when the (start-anchored, not end-anchored)
pattern matches.  `(\d+)` is greedy; since `~` is not a digit, the only
possible match takes the maximal digit run followed by `~`. -/
def backupIndexMatch (nameAtoms : List Char) (fileName : List Char) : Option Nat :=
  match matchAtoms nameAtoms fileName with
  | none => none
  | some rest =>
    let ds := rest.takeWhile Char.isDigit
    let rest2 := rest.dropWhile Char.isDigit
    if ds.isEmpty then none
    else
      match rest2 with
      | '~' :: _ => some (digitsToNat ds)
      | _ => none

/-- Embeds `next_backup_filename` (src/backup.py lines 25-49) on the path where
the caller supplies `files` (the `files is None` branch reads the file system
and is outside the model).  Scans `files` for the highest index matched by the
unescaped pattern and returns `name + str(max_index + 1) + '~'` when the plain
backup name is already present. -/
def next_backup_filename (name : String) (files : List String) : String :=
  let backupName := backup_filename name
  if files.contains (pyBasename backupName) then
    let nameAtoms := (pyBasename name).toList
    let maxIndex := files.foldl
      (fun m f =>
        match backupIndexMatch nameAtoms f.toList with
        | some i => if m < i then i else m
        | none => m) 0
    name ++ toString (maxIndex + 1) ++ "~"
  else backupName

/-- Strips a literal character sequence from the front of a list, returning the
rest on success.  Used to state what it means for a file to be an exact
(literal) backup of a name. -/
def stripLiteral : List Char → List Char → Option (List Char)
  | [], rest => some rest
  | _ :: _, [] => none
  | a :: as, c :: cs => if a = c then stripLiteral as cs else none

/-- The specification-level notion of a numeric backup of `base`: a file named
exactly `base` + non-empty digit run + `~`, with nothing after the tilde.
Returns the numeric index. -/
def literalBackupIndex (base : String) (f : String) : Option Nat :=
  match stripLiteral base.toList f.toList with
  | none => none
  | some rest =>
    let ds := rest.takeWhile Char.isDigit
    let rest2 := rest.dropWhile Char.isDigit
    if ds.isEmpty then none
    else if rest2 = ['~'] then some (digitsToNat ds) else none

/-- Highest numeric backup index of `name` actually present in `files`
(0 when none is present), per the literal reading of the specification. -/
def maxLiteralIndex (name : String) (files : List String) : Nat :=
  files.foldl
    (fun m f =>
      match literalBackupIndex (pyBasename name) f with
      | some i => if m < i then i else m
      | none => m) 0

/-! ## Command-line tokenization (pexpect.split_command_line, used by
LocalShell.run) -/

/-- Lexer states of `pexpect.split_command_line` (pexpect/utils.py), the
tokenizer invoked at src/local_shell.py line 185. -/
inductive SplitState
  | basic
  | esc
  | singlequote
  | doublequote
  | whitespace
deriving DecidableEq

/-- Embeds the character loop of `pexpect.split_command_line`: a small state
machine over the command line; `\\` escapes the next character, single and
double quotes group verbatim text, runs of whitespace separate arguments.
`argList` is the accumulated `arg_list`, `arg` the argument being built.  At
end of input a non-empty `arg` is appended (an empty one is dropped), exactly
as in the Python source. -/
def split_command_line_aux : List Char → List String → List Char → SplitState → List String
  | [], argList, arg, _ => if arg = [] then argList else argList ++ [String.mk arg]
  | c :: rest, argList, arg, st =>
    match st with
    | .basic | .whitespace =>
      if c = '\\' then split_command_line_aux rest argList arg .esc
      else if c = squote then split_command_line_aux rest argList arg .singlequote
      else if c = '"' then split_command_line_aux rest argList arg .doublequote
      else if pyIsSpace c then
        if st = .whitespace then split_command_line_aux rest argList arg .whitespace
        else split_command_line_aux rest (argList ++ [String.mk arg]) [] .whitespace
      else split_command_line_aux rest argList (arg ++ [c]) .basic
    | .esc => split_command_line_aux rest argList (arg ++ [c]) .basic
    | .singlequote =>
      if c = squote then split_command_line_aux rest argList arg .basic
      else split_command_line_aux rest argList (arg ++ [c]) .singlequote
    | .doublequote =>
      if c = '"' then split_command_line_aux rest argList arg .basic
      else split_command_line_aux rest argList (arg ++ [c]) .doublequote

/-- Embeds `pexpect.split_command_line(command_line)`. -/
def split_command_line (s : String) : List String :=
  split_command_line_aux s.toList [] [] .basic

/-- The `cmd_args` parameter of `run`: either a single command-line string or a
pre-tokenized argument list. -/
inductive CmdArgs
  | strCmd (s : String)
  | listCmd (l : List String)

/-- Embeds the `cmd_args` normalization of `LocalShell.run`
(src/local_shell.py lines 184-185): a string is tokenized with
`pexpect.split_command_line`; a list is passed through. -/
def localRunCmdArgs : CmdArgs → List String
  | .strCmd s => split_command_line s
  | .listCmd l => l

/-- Embeds the `cmd_args` normalization of `RemoteShell.run`
(src/remote_shell.py lines 215-217): the call to
`pexpect.split_command_line` is commented out there, and a string is wrapped
whole as a one-element list (`cmd_args = [cmd_args]`). -/
def remoteRunCmdArgs : CmdArgs → List String
  | .strCmd s => [s]
  | .listCmd l => l

/-- A character that the tokenizer treats as ordinary token material: not
whitespace, not a backslash, not a quote of either kind. -/
def plainChar (c : Char) : Bool :=
  !pyIsSpace c && c ≠ '\\' && c ≠ squote && c ≠ '"'

/-! ## ashell.py : expand_args -/

/-- The prefix/postfix configuration of an `AShell` instance
(src/ashell.py lines 27-37): each is `None` or a list of argument strings. -/
structure AShellCfg where
  instPre : Option (List String)
  instPost : Option (List String)

/-- Python truthiness of a `None`-or-list value: `None` and the empty list are
falsy. -/
def truthyList (o : Option (List String)) : Bool :=
  match o with
  | none => false
  | some l => !l.isEmpty

/-- Embeds `AShell.expand_args` (src/ashell.py lines 46-69).  The source tests
`if prefix:` / `elif self.prefix:` (truthiness, not `is not None`), and the
same for the postfix pair. -/
def expand_args (sh : AShellCfg) (cmd_args : List String)
    (preArg postArg : Option (List String)) : List String :=
  let args := cmd_args
  let args :=
    if truthyList preArg then preArg.getD [] ++ args
    else if truthyList sh.instPre then sh.instPre.getD [] ++ args
    else args
  let args :=
    if truthyList postArg then args ++ postArg.getD []
    else if truthyList sh.instPost then args ++ sh.instPost.getD []
    else args
  args

/-- Auxiliary: the code's max-index fold and the literal one agree when the
per-file index functions agree on every member of the list. -/
theorem foldIndex_agree (name : String) (files : List String)
    (hagree : ∀ f ∈ files, backupIndexMatch (pyBasename name).toList f.toList
        = literalBackupIndex (pyBasename name) f) (m : Nat) :
    files.foldl (fun m f =>
        match backupIndexMatch (pyBasename name).toList f.toList with
        | some i => if m < i then i else m
        | none => m) m
      = files.foldl (fun m f =>
        match literalBackupIndex (pyBasename name) f with
        | some i => if m < i then i else m
        | none => m) m := by
  induction files generalizing m with
  | nil => rfl
  | cons a l ih =>
    simp only [List.foldl_cons]
    rw [hagree a (by simp)]
    exact ih (fun f hf => hagree f (by simp [hf])) _

/-! ## local_shell.py : run_process / run (plain streaming path) -/

/-- Abstract behavior of one local child-process execution as `run_process`
observes it: the output chunks read before any OS-level failure, and the
`OSError` text if one is raised (at `Popen` spawn time `chunks` is empty; a
later failure leaves the chunks yielded so far). -/
structure ProcBehavior where
  chunks : List String
  osError : Option String

/-- The message `error(...)` logs at src/local_shell.py line 289:
`"Error: Unable to run process: {cmd_args} - {err}"` with `repr(cmd_args)`
interpolated. -/
def spawnErrorMessage (cmd_args : List String) (err : String) : String :=
  "Error: Unable to run process: [" ++
    String.intercalate ", " (cmd_args.map (fun s =>
      String.mk (squote :: s.toList ++ [squote]))) ++ "] - " ++ err

/-- Embeds the control flow of `LocalShell.run_process`
(src/local_shell.py lines 238-289): the whole spawn-and-poll body sits in one
`try`; each output chunk is yielded as read; an `OSError` is caught by the
`except OSError` clause, which logs the message above and falls off the end of
the generator.  Returns the pair (chunks yielded to the caller, log messages
emitted); no exception ever escapes. -/
def run_process (cmd_args : List String) (beh : ProcBehavior) : List String × List String :=
  match beh.osError with
  | none => (beh.chunks, [])
  | some err => (beh.chunks, [spawnErrorMessage cmd_args err])

/-- Embeds the plain (non-interactive) path of `LocalShell.run`
(src/local_shell.py lines 196-201): accumulate every line the generator
yields and return their concatenation, alongside the log messages. -/
def localRunPlain (cmd_args : List String) (beh : ProcBehavior) : String × List String :=
  let out := run_process cmd_args beh
  (String.join out.1, out.2)

/-! ## remote_shell.py : put -/

/-- The quoting applied to the remote path on the first transfer attempt at
src/remote_shell.py line 271: `'"{dest}"'.format(dest=remote_path)`. -/
def pathQuote (s : String) : String := "\"" ++ s ++ "\""

/-- Embeds `RemoteShell.put` (src/remote_shell.py lines 247-278) with the SCP
transfer abstracted as `attempt`, a function from the remote-path argument to
either an exception text or the value `scp.put` returns (`none` models
Python's `None`, turned into `''` by the `or ''`).  The first attempt quotes
the path; its exception is swallowed and one retry is made without quoting;
the second exception's text becomes the returned output.  Also returns the
list of path arguments attempted, in order. -/
def put (attempt : String → Except String (Option String)) (remote_path : String) :
    String × List String :=
  match attempt (pathQuote remote_path) with
  | .ok o => (o.getD "", [pathQuote remote_path])
  | .error _ =>
    match attempt remote_path with
    | .ok o => (o.getD "", [pathQuote remote_path, remote_path])
    | .error ex => (ex, [pathQuote remote_path, remote_path])

/-! ## Pattern-response dictionaries (local_shell.run_pattern_response,
remote_shell.run_pattern_response): construction and caller-visible effect -/

/-- A key of a pattern-response table: a regex pattern source string, or the
`pexpect.TIMEOUT` sentinel class used as a key at src/local_shell.py line 105
and src/remote_shell.py line 144. -/
inductive PKey
  | pat (s : String)
  | timeoutSentinel
deriving DecidableEq

/-- An insertion-ordered dictionary, as Python `dict`/`OrderedDict` behaves:
assignment to an existing key updates it in place, assignment to a new key
appends. -/
abbrev PRDict := List (PKey × Option String)

/-- Python `d[k] = v` on an insertion-ordered dictionary. -/
def dictSet (d : PRDict) (k : PKey) (v : Option String) : PRDict :=
  if (d.map Prod.fst).contains k then
    d.map (fun e => if e.1 = k then (k, v) else e)
  else d ++ [(k, v)]

/-- The `MOVEMENT` regex source defined at src/ashell.py line 17. -/
def MOVEMENT : String := "(\\r\\n|[\\r\\n\\b\\f])"

/-- The carriage-return response `CR` defined at src/ashell.py line 13. -/
def CR : String := "\r"

/-- The local default "accept default prompts" pattern
(src/local_shell.py line 100): `\[\S+\](?<!\[sudo\]) `. -/
def genericLocalPat : String := "\\[\\S+\\](?<!\\[sudo\\]) "

/-- The local sudo-password pattern (src/local_shell.py line 102):
`\[sudo\] password for \S+\:`. -/
def sudoLocalPat : String := "\\[sudo\\] password for \\S+\\:"

/-- The remote "accept default prompts" pattern
(src/remote_shell.py line 141): `\[\S+\](?<!\[sudo\])(?!\S)`. -/
def genericRemotePat : String := "\\[\\S+\\](?<!\\[sudo\\])(?!\\S)"

/-- The remote sudo pattern built at src/remote_shell.py line 137:
`'password for {user}: '`. -/
def remoteSudoPat (user : String) : String := "password for " ++ user ++ ": "

/-- Embeds the dictionary handling of `LocalShell.run_pattern_response`
(src/local_shell.py lines 98-105).  When the caller passed a mapping, the two
sentinel entries are assigned into that same object; the function returns the
table the engine uses and the caller's mapping as it stands after the call
(they are one object — Python aliasing).  When no mapping was passed, a fresh
default table is built (generic-prompt entry, plus the sudo entry when a
password is configured) and the caller sees nothing. -/
def local_rpr_dict (password : Option String) (callerDict : Option PRDict) :
    PRDict × Option PRDict :=
  let d0 :=
    match callerDict with
    | none =>
      let d := dictSet [] (.pat genericLocalPat) (some CR)
      match password with
      | some pw => dictSet d (.pat sudoLocalPat) (some (pw ++ CR))
      | none => d
    | some d => d
  let d1 := dictSet d0 (.pat MOVEMENT) none
  let d2 := dictSet d1 .timeoutSentinel (some CR)
  (d2, callerDict.map (fun _ => d2))

/-- Embeds the dictionary handling of `RemoteShell.run_pattern_response`
(src/remote_shell.py lines 134-144): the caller's mapping is copied into a
fresh `OrderedDict` (`OrderedDict(pattern_response or {})`), the
accept-defaults entries are added when requested, then the sentinels; the
caller's own mapping object is never written to.  Returns the engine table and
the caller's mapping after the call. -/
def remote_rpr_dict (user pw : String) (acceptDefaults : Bool)
    (callerDict : Option PRDict) : PRDict × Option PRDict :=
  let d := callerDict.getD []
  let d :=
    if acceptDefaults then
      dictSet (dictSet d (.pat (remoteSudoPat user)) (some (pw ++ "\r")))
        (.pat genericRemotePat) (some CR)
    else d
  let d := dictSet d (.pat MOVEMENT) none
  let d := dictSet d .timeoutSentinel none
  (d, callerDict)

/-! ## remote_shell.py : run output shaping -/

/-- A character at which Python `str.splitlines` breaks a line. -/
def isLineSep (c : Char) : Bool :=
  c = '\n' || c = '\x0d' || c = '\x0b' || c = '\x0c' ||
  c = '\x1c' || c = '\x1d' || c = '\x1e' || c = '\x85' ||
  c = Char.ofNat 0x2028 || c = Char.ofNat 0x2029

/-- Embeds Python `str.splitlines()` (without keepends): split at every line
boundary, treating `\r\n` as a single boundary, and discard the boundary
characters; a trailing boundary produces no empty final line. -/
def splitlinesAux (s : List Char) (cur : List Char) : List (List Char) :=
  match s with
  | [] => if cur = [] then [] else [cur]
  | c :: rest =>
    if c = '\x0d' then
      cur :: splitlinesAux (if rest.head? = some '\n' then rest.tail else rest) []
    else if isLineSep c then cur :: splitlinesAux rest []
    else splitlinesAux rest (cur ++ [c])
termination_by s.length
decreasing_by
  · split <;> simp [List.length_tail] <;> omega
  · simp
  · simp

/-- Python `s.splitlines()`. -/
def pySplitlines (s : String) : List String :=
  (splitlinesAux s.toList []).map String.mk

/-- Embeds the return value of `RemoteShell.run_pattern_response`
(src/remote_shell.py line 179): `''.join(output).splitlines()` over the
accumulated before/after fragments. -/
def remote_rpr_output (fragments : List String) : List String :=
  pySplitlines (String.join fragments)

/-- Embeds the return shaping of `RemoteShell.run`
(src/remote_shell.py lines 229-245): on the pattern-response path (a truthy
`pattern_response`, or `accept_defaults` per call or on the instance) the
returned string is `''.join(buf)` where `buf` is the line list from
`run_pattern_response`; on the direct path `buf` is the session's `before`
text plus, when truthy, its `after` text. -/
def remote_run_output (patternResponseGiven acceptDefaultsArg acceptDefaultsInst : Bool)
    (fragments : List String) (before after : String) : String :=
  if patternResponseGiven || acceptDefaultsArg || acceptDefaultsInst then
    String.join (remote_rpr_output fragments)
  else
    before ++ (if after.isEmpty then "" else after)

/-! ## Pattern matching for the default pattern-response tables
(local_shell.run_pattern_response / remote_shell.run_pattern_response) -/

/-- The regex patterns of the two engines' default tables, plus the pexpect
sentinels they are matched alongside.  Each constructor's matching semantics
below is translated from the regex source it names. -/
inductive RePat
  | localGeneric
  | localSudo
  | remoteSudo (user : String)
  | remoteGeneric
  | movement
  | pexpectPrompt
deriving DecidableEq

/-- The six characters `[sudo]` that the negative lookbehind
`(?<!\[sudo\])` tests for. -/
def sudoTag : List Char := ['[', 's', 'u', 'd', 'o', ']']

/-- Whether the consumed text ends with `[sudo]` — the condition under which
the negative lookbehind `(?<!\[sudo\])` fails. -/
def endsWithSudoTag (l : List Char) : Bool :=
  if l.length < 6 then false else decide (l.drop (l.length - 6) = sudoTag)

/-- Does the lookahead `(?!\S)` hold at the position in front of `rest`:
end of text, or a whitespace character next. -/
def nextNotNonspace (rest : List Char) : Bool :=
  match rest.head? with
  | none => true
  | some c => pyIsSpace c

/-- Backtracking search for the `\S+\](?<!\[sudo\]) ` tail of the local
generic pattern `\[\S+\](?<!\[sudo\]) ` (src/local_shell.py line 100), after
the opening `[` was consumed.  `leftCtx` is the text before the match start
(the lookbehind reads absolute positions), `mid` the characters `\S+` has
absorbed so far, `rest` the remaining text.  The disjunction expresses the
regex engine's backtracking over where `\S+` stops: either `\]` matches here
(requiring the following space and the lookbehind) or `\S+` absorbs one more
non-space character. -/
def genScanLocal (leftCtx mid rest : List Char) : Bool :=
  match rest with
  | [] => false
  | c :: rest2 =>
    (c == ']' && rest2.head? == some ' ' && !mid.isEmpty &&
      !endsWithSudoTag (leftCtx ++ '[' :: mid ++ [']'])) ||
    (!pyIsSpace c && genScanLocal leftCtx (mid ++ [c]) rest2)

/-- Same for the remote generic pattern `\[\S+\](?<!\[sudo\])(?!\S)`
(src/remote_shell.py line 141), whose final test is the negative lookahead
instead of a literal space. -/
def genScanRemote (leftCtx mid rest : List Char) : Bool :=
  match rest with
  | [] => false
  | c :: rest2 =>
    (c == ']' && nextNotNonspace rest2 && !mid.isEmpty &&
      !endsWithSudoTag (leftCtx ++ '[' :: mid ++ [']'])) ||
    (!pyIsSpace c && genScanRemote leftCtx (mid ++ [c]) rest2)

/-- The tail `\S+\:` of the local sudo pattern: a non-empty run of non-space
characters followed by a literal colon (the existential over where the run
stops captures the engine's backtracking). -/
def colonAfter : List Char → Bool
  | [] => false
  | c :: rest => c == ':' || (!pyIsSpace c && colonAfter rest)

/-- Match of `\S+\:` at the start of `u`. -/
def scanNonspaceThenColon (u : List Char) : Bool :=
  match u with
  | [] => false
  | c :: rest => !pyIsSpace c && colonAfter rest

/-- The literal characters `password for ` of the remote sudo pattern
`'password for {user}: '` (src/remote_shell.py line 137). -/
def remoteSudoPrefix : List Char :=
  ['p', 'a', 's', 's', 'w', 'o', 'r', 'd', ' ', 'f', 'o', 'r', ' ']

/-- The characters after the opening bracket of `[sudo] password for `. -/
def sudoPromptPrefixTail : List Char :=
  ['s', 'u', 'd', 'o', ']', ' '] ++ remoteSudoPrefix

/-- The literal prefix `[sudo] password for ` of the local sudo pattern
`\[sudo\] password for \S+\:` (src/local_shell.py line 102). -/
def sudoPromptPrefix : List Char := '[' :: sudoPromptPrefixTail

/-- The literal characters `[PEXPECT]` of the pxssh session prompt regex
`\[PEXPECT\][\$\#] ` (pxssh UNIQUE_PROMPT). -/
def pexpectTag : List Char :=
  ['[', 'P', 'E', 'X', 'P', 'E', 'C', 'T', ']']

/-- Does `right` start with the literal `lit`. -/
def startsWithLit (lit right : List Char) : Bool :=
  match stripLiteral lit right with
  | some _ => true
  | none => false

/-- Whether the pattern matches at one position of the text: `left` is the
text before the position (read by lookbehind), `right` the text from the
position on.  The `remoteSudo` pattern `'password for {user}: '`
(src/remote_shell.py line 137) is matched literally, which coincides with its
regex reading as long as the user name has no regex metacharacters (the
theorems assume that).  `movement` is `(\r\n|[\r\n\b\f])` (src/ashell.py
line 17): it matches here exactly when the next character is one of CR, LF,
BS, FF.  `pexpectPrompt` is the pxssh session prompt regex
`\[PEXPECT\][\$\#] `. -/
def matchHere (p : RePat) (left right : List Char) : Bool :=
  match p with
  | .localGeneric =>
    match right with
    | c :: rest => c == '[' && genScanLocal left [] rest
    | [] => false
  | .localSudo =>
    match stripLiteral sudoPromptPrefix right with
    | some u => scanNonspaceThenColon u
    | none => false
  | .remoteSudo user => startsWithLit (remoteSudoPrefix ++ user.toList ++ [':', ' ']) right
  | .remoteGeneric =>
    match right with
    | c :: rest => c == '[' && genScanRemote left [] rest
    | [] => false
  | .movement =>
    match right.head? with
    | some c => c == '\x0d' || c == '\n' || c == '\x08' || c == '\x0c'
    | none => false
  | .pexpectPrompt =>
    match stripLiteral pexpectTag right with
    | some rest =>
      match rest with
      | c :: rest2 => (c == '$' || c == '#') && rest2.head? == some ' '
      | [] => false
    | none => false

/-- Position of the earliest match of the pattern in the text at or after
`pos`, scanning left to right as `re.search` does; `left` holds the text
already scanned past (context for lookbehind). -/
def firstMatchFrom (p : RePat) (left right : List Char) (pos : Nat) : Option Nat :=
  if matchHere p left right then some pos
  else
    match right with
    | [] => none
    | c :: rest => firstMatchFrom p (left ++ [c]) rest (pos + 1)

/-- `re.search`: position of the earliest match of the pattern in the text. -/
def firstMatchIdx (p : RePat) (s : List Char) : Option Nat :=
  firstMatchFrom p [] s 0

/-- One expect-table entry: a compiled pattern, or `none` for the
`pexpect.TIMEOUT` sentinel (which matches no text), together with the response
dispatched when the entry wins. -/
abbrev ExpectTable := List (Option RePat × Option String)

/-- Earliest match of a table entry in the text. -/
def firstMatchOfEntry (e : Option RePat) (s : List Char) : Option Nat :=
  match e with
  | some p => firstMatchIdx p s
  | none => none

/-- Embeds pexpect `searcher_re.search` over the compiled pattern list:
every pattern is searched, and the one whose match starts strictly earliest
wins; on equal positions the pattern listed first wins (pexpect keeps the
first hit and replaces it only on a strictly smaller start).  Returns the
winning (table index, match position). -/
def expectSelectAux (tbl : ExpectTable) (s : List Char) (i : Nat)
    (best : Option (Nat × Nat)) : Option (Nat × Nat) :=
  match tbl with
  | [] => best
  | e :: rest =>
    let best2 :=
      match firstMatchOfEntry e.1 s, best with
      | some mpos, none => some (i, mpos)
      | some mpos, some (bi, bpos) =>
        if mpos < bpos then some (i, mpos) else some (bi, bpos)
      | none, b => b
    expectSelectAux rest s (i + 1) best2

/-- The entry `child.expect(patterns)` selects on the text. -/
def expectSelect (tbl : ExpectTable) (s : List Char) : Option (Nat × Nat) :=
  expectSelectAux tbl s 0 none

/-- The (table index, response) the engine dispatches on the text: the
selected entry's response, which the loop sends when non-null. -/
def expectDispatch (tbl : ExpectTable) (s : List Char) : Option (Nat × Option String) :=
  match expectSelect tbl s with
  | some (i, _) =>
    match tbl.get? i with
    | some e => some (i, e.2)
    | none => none
  | none => none

/-- The local default table built by `LocalShell.run_pattern_response`
(src/local_shell.py lines 98-105) when no mapping is passed and a password is
configured, in insertion order: generic prompt ↦ CR, sudo prompt ↦
password+CR, movement ↦ None, TIMEOUT ↦ CR. -/
def localDefaultTable (pw : String) : ExpectTable :=
  [(some .localGeneric, some CR),
   (some .localSudo, some (pw ++ CR)),
   (some .movement, none),
   (none, some CR)]

/-- The remote accept-defaults table built by
`RemoteShell.run_pattern_response` (src/remote_shell.py lines 134-147) from an
empty caller mapping: sudo ↦ password+CR, generic ↦ CR, movement ↦ None,
TIMEOUT ↦ None, and the session PROMPT appended last to the pattern list
(selecting it breaks the loop without sending; its response is modelled as
None). -/
def remoteDefaultTable (user pw : String) : ExpectTable :=
  [(some (.remoteSudo user), some (pw ++ "\r")),
   (some .remoteGeneric, some CR),
   (some .movement, none),
   (none, none),
   (some .pexpectPrompt, none)]

/-- The text a sudo password prompt emits: `[sudo] password for <user>: `. -/
def sudoPromptText (user : String) : List Char :=
  sudoPromptPrefix ++ user.toList ++ [':', ' ']

/-- Characters admitted in the user name of the modelled sudo prompt: not
whitespace, not a movement control character, and not a regex metacharacter
(so that the literal reading of the remote sudo pattern is exact). -/
def promptUserChar (c : Char) : Bool :=
  !pyIsSpace c && c ≠ '\x08' &&
  !(c ∈ ['.', '^', '$', '*', '+', '?', '{', '}', '[', ']', '(', ')', '\\', '|'])

/-! ## watchdog.py -/

/-- Model of `threading.Timer`: constructed with an interval and a callback,
it runs the callback once, `interval` seconds after `.start()` is called,
unless `.cancel()` happens first.  A Timer that is never started never runs
its callback. -/
structure PyTimer where
  interval : Nat
  started : Bool
  cancelled : Bool
deriving DecidableEq

/-- `threading.Timer(interval, handler)`: a fresh, unstarted, uncancelled
timer. -/
def PyTimer.new (interval : Nat) : PyTimer :=
  { interval := interval, started := false, cancelled := false }

/-- Whether a timer's callback ever runs, once all wall-clock time has
passed: it must have been started and not cancelled. -/
def PyTimer.fires (t : PyTimer) : Bool := t.started && !t.cancelled

/-- State of a `Watchdog` (src/watchdog.py lines 38-64): the configured
timeout and the current timer handle. -/
structure Watchdog where
  timeout : Nat
  timer : Option PyTimer
deriving DecidableEq

/-- Embeds `Watchdog.start` (src/watchdog.py lines 51-56): when
`timeout > 0` it assigns `self.timer = Timer(self.timeout, self.handler)` —
and does nothing else; in particular the source never calls
`self.timer.start()`.  With `timeout = 0` it is a no-op. -/
def Watchdog.start (w : Watchdog) : Watchdog :=
  if w.timeout > 0 then { w with timer := some (PyTimer.new w.timeout) } else w

/-- Embeds `Watchdog.stop` (src/watchdog.py lines 58-64): cancel the timer if
one is held and clear the handle. -/
def Watchdog.stop (w : Watchdog) : Watchdog :=
  match w.timer with
  | some _ => { w with timer := none }
  | none => w

/-- Embeds `Watchdog.__init__` (src/watchdog.py lines 38-42): record the
timeout, clear the handle, and call `start()`. -/
def Watchdog.init (timeout : Nat) : Watchdog :=
  Watchdog.start { timeout := timeout, timer := none }

/-- How many times the configured handler is ever invoked for a watchdog
that is left alone after the given state: once if its timer fires, else
never. -/
def Watchdog.handlerInvocations (w : Watchdog) : Nat :=
  match w.timer with
  | some t => if t.fires then 1 else 0
  | none => 0

end Herringlib

namespace Herringlib

/-- Claim C10: in `next_backup_filename` the base file name is interpolated
into the index-scanning regex without escaping, so metacharacters in the name
match arbitrarily: `reportXtxt3~` is not a backup of `report.txt` (the literal
reading yields no index), yet the code's scan extracts index 3 from it and the
returned name is `report.txt4~`, derived from that unrelated entry. -/
theorem next_backup_filename_regex_injection :
    literalBackupIndex "report.txt" "reportXtxt3~" = none ∧
    backupIndexMatch "report.txt".toList "reportXtxt3~".toList = some 3 ∧
    next_backup_filename "report.txt" ["report.txt", "report.txt~", "reportXtxt3~"]
      = "report.txt4~" := by
  decide

/-- Claim C7, counterexample: with `files = ['report.txt~', 'reportXtxt9~']`
the plain backup name is present and no numeric backup of `report.txt` exists,
so the claimed result is `report.txt1~` (one past the highest index present,
which is none); the code instead derives index 9 from the unrelated entry and
returns `report.txt10~`. -/
theorem next_backup_filename_collision_counterexample :
    next_backup_filename "report.txt" ["report.txt~", "reportXtxt9~"] = "report.txt10~" ∧
    maxLiteralIndex "report.txt" ["report.txt~", "reportXtxt9~"] = 0 ∧
    ("report.txt10~" : String) ≠ "report.txt" ++ toString (0 + 1) ++ "~" := by
  decide

/-- Claim C7 (amended): `next_backup_filename('report.txt', files=['report.txt'])`
returns `report.txt~`; with `files=['report.txt', 'report.txt~']` it returns
`report.txt1~`; and in general, for a name whose base-name characters are `.`
or regex-literal characters (so the unescaped interpolation keeps the
pattern's single-atom shape), whenever the plain backup name (`name + '~'`)
is already present in `files` and every entry of `files` on which the code's
(unescaped, start-anchored) index scan fires is an exact `basename+digits+'~'`
backup of `name` with the same index, the result is `name` followed by one past
the highest numeric backup index present and a `~`. -/
theorem next_backup_filename_collision_sequence :
    next_backup_filename "report.txt" ["report.txt"] = "report.txt~" ∧
    next_backup_filename "report.txt" ["report.txt", "report.txt~"] = "report.txt1~" ∧
    ∀ (name : String) (files : List String),
      (∀ c ∈ (pyBasename name).toList, modeledNameChar c = true) →
      files.contains (pyBasename (backup_filename name)) = true →
      (∀ f ∈ files,
        backupIndexMatch (pyBasename name).toList f.toList
          = literalBackupIndex (pyBasename name) f) →
      next_backup_filename name files
        = name ++ toString (maxLiteralIndex name files + 1) ++ "~" := by
  refine ⟨by decide, by decide, ?_⟩
  intro name files _hname hmem hagree
  have h1 : next_backup_filename name files
      = name ++ toString ((files.foldl
          (fun m f =>
            match backupIndexMatch (pyBasename name).toList f.toList with
            | some i => if m < i then i else m
            | none => m) 0) + 1) ++ "~" := by
    unfold next_backup_filename
    rw [if_pos hmem]
  rw [h1]
  unfold maxLiteralIndex
  rw [foldIndex_agree name files hagree 0]

/-- Claim C7 witness: the general clause applied to the concrete input
`name = "n"`, `files = ["n~", "n3~"]`. -/
theorem next_backup_filename_collision_sequence_witness :
    next_backup_filename "n" ["n~", "n3~"]
      = "n" ++ toString (maxLiteralIndex "n" ["n~", "n3~"] + 1) ++ "~" :=
  next_backup_filename_collision_sequence.2.2 "n" ["n~", "n3~"]
    (by decide) (by decide) (by decide)

/-- Claim C3, counterexample: with an instance prefix `['sudo']`, passing the
explicit per-call arguments `prefix=[]`, `postfix=[]` does not return
`P + L + Q = ['ls']`; the empty explicit list is falsy, so the code falls back
to the instance prefix and returns `['sudo', 'ls']`. -/
theorem expand_args_empty_explicit_counterexample :
    expand_args ⟨some ["sudo"], none⟩ ["ls"] (some []) (some []) = ["sudo", "ls"] ∧
    expand_args ⟨some ["sudo"], none⟩ ["ls"] (some []) (some [])
      ≠ ([] : List String) ++ ["ls"] ++ [] := by
  decide

/-- Claim C3 (amended): `expand_args(L, prefix=P, postfix=Q)` returns exactly
`P + L + Q` when `P` and `Q` are given explicitly and are non-empty (an
explicit empty list is falsy and is treated as absent, falling back to the
instance's); returns `self.prefix + L + self.postfix` when the explicit
arguments are omitted and the instance has them configured; and returns `L`
unchanged when neither per-call nor instance prefix/postfix exist.  An explicit
non-empty per-call argument overrides, and does not merge with, the
instance's. -/
theorem expand_args_spec (sh : AShellCfg) (L P Q : List String) :
    (P ≠ [] → Q ≠ [] → expand_args sh L (some P) (some Q) = P ++ L ++ Q) ∧
    (∀ ip op, sh.instPre = some ip → sh.instPost = some op →
      expand_args sh L none none = ip ++ L ++ op) ∧
    (sh.instPre = none → sh.instPost = none → expand_args sh L none none = L) := by
  refine ⟨?_, ?_, ?_⟩
  · intro hP hQ
    simp [expand_args, truthyList, hP, hQ]
  · intro ip op hip hop
    rcases eq_or_ne ip [] with hip0 | hip0 <;> rcases eq_or_ne op [] with hop0 | hop0 <;>
      simp [expand_args, truthyList, hip, hop, hip0, hop0]
  · intro h1 h2
    simp [expand_args, truthyList, h1, h2]

/-- Auxiliary: in the basic state the tokenizer appends a run of plain
characters to the argument being built. -/
theorem split_aux_plain (a : List Char) (ha : ∀ c ∈ a, plainChar c = true)
    (rest : List Char) (argList : List String) (arg : List Char) :
    split_command_line_aux (a ++ rest) argList arg .basic
      = split_command_line_aux rest argList (arg ++ a) .basic := by
  induction a generalizing arg with
  | nil => simp
  | cons c a ih =>
    have hc := ha c (by simp)
    simp only [plainChar, Bool.and_eq_true, bne_iff_ne, Bool.not_eq_eq_eq_not,
      Bool.not_true, decide_eq_true_eq] at hc
    obtain ⟨⟨⟨h1, h2⟩, h3⟩, h4⟩ := hc
    simp only [List.cons_append, split_command_line_aux, List.append_eq]
    rw [if_neg h2, if_neg h3, if_neg h4, if_neg (by simp [h1])]
    rw [ih (fun x hx => ha x (by simp [hx])) (arg ++ [c])]
    simp

/-- Auxiliary: inside double quotes the tokenizer copies characters verbatim
until the closing quote, then returns to the basic state. -/
theorem split_aux_dquote (b : List Char) (hb : ∀ c ∈ b, c ≠ '"')
    (rest : List Char) (argList : List String) (arg : List Char) :
    split_command_line_aux (b ++ '"' :: rest) argList arg .doublequote
      = split_command_line_aux rest argList (arg ++ b) .basic := by
  induction b generalizing arg with
  | nil => simp [split_command_line_aux]
  | cons c b ih =>
    have hc := hb c (by simp)
    simp only [List.cons_append, split_command_line_aux, List.append_eq]
    rw [if_neg hc]
    rw [ih (fun x hx => hb x (by simp [hx])) (arg ++ [c])]
    simp

/-- Auxiliary: a whitespace character in the basic state closes the argument
being built and enters the whitespace state. -/
theorem split_aux_space_basic (X : List Char) (argList : List String) (arg : List Char) :
    split_command_line_aux (' ' :: X) argList arg .basic
      = split_command_line_aux X (argList ++ [String.mk arg]) [] .whitespace := by
  simp only [split_command_line_aux]
  rw [if_neg (by decide), if_neg (by decide), if_neg (by decide),
    if_pos (by decide), if_neg (by decide)]

/-- Auxiliary: a double quote in the whitespace state enters the double-quote
state. -/
theorem split_aux_dquote_ws (X : List Char) (argList : List String) (arg : List Char) :
    split_command_line_aux ('"' :: X) argList arg .whitespace
      = split_command_line_aux X argList arg .doublequote := by
  simp only [split_command_line_aux]
  rw [if_neg (by decide), if_neg (by decide), if_pos trivial]

/-- Auxiliary: a plain character in the whitespace state starts a new argument
and returns to the basic state. -/
theorem split_aux_plain_ws (c : Char) (hc : plainChar c = true)
    (X : List Char) (argList : List String) (arg : List Char) :
    split_command_line_aux (c :: X) argList arg .whitespace
      = split_command_line_aux X argList (arg ++ [c]) .basic := by
  simp only [plainChar, Bool.and_eq_true, bne_iff_ne, Bool.not_eq_eq_eq_not,
    Bool.not_true, decide_eq_true_eq] at hc
  obtain ⟨⟨⟨h1, h2⟩, h3⟩, h4⟩ := hc
  simp only [split_command_line_aux]
  rw [if_neg h2, if_neg h3, if_neg h4, if_neg (by simp [h1])]

/-- Claim C4, counterexample: `RemoteShell.run` does not tokenize a string
command; the tokenizing call is commented out and the string is wrapped whole,
so `'echo "a b" c'` becomes the single-element list `['echo "a b" c']`, not
`['echo', 'a b', 'c']`. -/
theorem remote_run_no_tokenization_counterexample :
    remoteRunCmdArgs (.strCmd "echo \"a b\" c") = ["echo \"a b\" c"] ∧
    remoteRunCmdArgs (.strCmd "echo \"a b\" c") ≠ ["echo", "a b", "c"] := by
  decide

/-- Claim C4 (amended): `LocalShell.run` tokenizes a single string command
with shell-quoting rules, so quoted substrings containing spaces survive as
single arguments: generally, `A "B" C` with plain tokens `A`, `C` and
quote-free `B` tokenizes to `[A, B, C]`, and concretely `'echo "a b" c'`
tokenizes to `['echo', 'a b', 'c']`.  `RemoteShell.run`, by contrast, does not
tokenize: it wraps the whole string as a single-element argument list.  A
pre-tokenized list is passed through unchanged by both shells. -/
theorem run_string_tokenization_spec :
    (∀ a b c : List Char,
      a ≠ [] → c ≠ [] →
      (∀ x ∈ a, plainChar x = true) → (∀ x ∈ c, plainChar x = true) →
      (∀ x ∈ b, x ≠ '"') →
      localRunCmdArgs (.strCmd (String.mk (a ++ [' ', '"'] ++ b ++ ['"', ' '] ++ c)))
        = [String.mk a, String.mk b, String.mk c]) ∧
    localRunCmdArgs (.strCmd "echo \"a b\" c") = ["echo", "a b", "c"] ∧
    (∀ s : String, remoteRunCmdArgs (.strCmd s) = [s]) ∧
    (∀ l : List String,
      localRunCmdArgs (.listCmd l) = l ∧ remoteRunCmdArgs (.listCmd l) = l) := by
  refine ⟨?_, by decide, fun s => rfl, fun l => ⟨rfl, rfl⟩⟩
  intro a b c hane hcne ha hc hb
  obtain ⟨c0, c', rfl⟩ : ∃ c0 c', c = c0 :: c' :=
    match c, hcne with | x :: xs, _ => ⟨x, xs, rfl⟩
  have hc0 := hc c0 (by simp)
  simp only [plainChar, Bool.and_eq_true, bne_iff_ne, Bool.not_eq_eq_eq_not,
    Bool.not_true, decide_eq_true_eq] at hc0
  show split_command_line_aux (a ++ [' ', '"'] ++ b ++ ['"', ' '] ++ c0 :: c') [] [] .basic
      = [String.mk a, String.mk b, String.mk (c0 :: c')]
  rw [show (a ++ [' ', '"'] ++ b ++ ['"', ' '] ++ c0 :: c' : List Char)
      = a ++ (' ' :: '"' :: (b ++ '"' :: ' ' :: c0 :: c')) by simp]
  rw [split_aux_plain a ha, List.nil_append]
  rw [split_aux_space_basic, List.nil_append]
  rw [split_aux_dquote_ws]
  rw [show (b ++ '"' :: ' ' :: c0 :: c' : List Char) = b ++ '"' :: (' ' :: c0 :: c') from rfl]
  rw [split_aux_dquote b hb, List.nil_append]
  rw [split_aux_space_basic]
  rw [split_aux_plain_ws c0 (hc c0 (by simp)), List.nil_append]
  rw [show (c' : List Char) = c' ++ [] by simp]
  rw [split_aux_plain c' (fun x hx => hc x (by simp [hx]))]
  simp [split_command_line_aux]

/-- Claim C4 witness: the general clause applied to the concrete command line
`echo "a b" c`. -/
theorem run_string_tokenization_spec_witness :
    localRunCmdArgs (.strCmd (String.mk
        (['e', 'c', 'h', 'o'] ++ [' ', '"'] ++ ['a', ' ', 'b'] ++ ['"', ' '] ++ ['c'])))
      = [String.mk ['e', 'c', 'h', 'o'], String.mk ['a', ' ', 'b'], String.mk ['c']] :=
  run_string_tokenization_spec.1 ['e', 'c', 'h', 'o'] ['a', ' ', 'b'] ['c']
    (by decide) (by decide) (by decide) (by decide) (by decide)

/-- Claim C1 (code bug): `Watchdog.start` constructs `threading.Timer(self.timeout,
self.handler)` but never calls `.start()` on it, so the timer thread is never
armed and the handler is never invoked — for a watchdog constructed with
timeout 1 the timer object exists, unstarted, and the handler runs zero times
instead of once after one second; with timeout 0 no timer is created; and in
general no timeout value ever leads to an invocation. -/
theorem watchdog_timer_never_started :
    (Watchdog.init 1).timer = some (PyTimer.new 1) ∧
    (PyTimer.new 1).started = false ∧
    (Watchdog.init 1).handlerInvocations = 0 ∧
    (Watchdog.init 0).timer = none ∧
    (∀ t : Nat, (Watchdog.init t).handlerInvocations = 0) := by
  refine ⟨rfl, rfl, rfl, rfl, ?_⟩
  intro t
  unfold Watchdog.init Watchdog.start Watchdog.handlerInvocations
  by_cases h : t > 0 <;> simp [h, PyTimer.new, PyTimer.fires]

/-- Claim C5: when the local child process cannot be spawned (or an `OSError`
strikes during the polling loop), the error and the attempted arguments are
logged via `error(...)`, no exception propagates (the embedding is a total
function into the output/log pair), and `run` returns the concatenation of
whatever chunks were yielded before the failure — the empty string when the
spawn itself failed. -/
theorem local_spawn_failure_soft (cmd_args : List String) (beh : ProcBehavior)
    (err : String) (herr : beh.osError = some err) :
    (localRunPlain cmd_args beh).1 = String.join beh.chunks ∧
    (localRunPlain cmd_args beh).2 = [spawnErrorMessage cmd_args err] ∧
    (beh.chunks = [] → (localRunPlain cmd_args beh).1 = "") := by
  unfold localRunPlain run_process
  rw [herr]
  refine ⟨rfl, rfl, fun h0 => ?_⟩
  rw [h0]
  rfl

/-- Claim C5 witness: a spawn failure with no prior output yields the logged
message and the empty result. -/
theorem local_spawn_failure_soft_witness :
    (localRunPlain ["ls"] ⟨[], some "boom"⟩).1 = String.join [] ∧
    (localRunPlain ["ls"] ⟨[], some "boom"⟩).2 = [spawnErrorMessage ["ls"] "boom"] ∧
    (([] : List String) = [] → (localRunPlain ["ls"] ⟨[], some "boom"⟩).1 = "") :=
  local_spawn_failure_soft ["ls"] ⟨[], some "boom"⟩ "boom" rfl

/-- Claim C6: `RemoteShell.put` attempts the transfer first with the quoted
remote path; on success no second attempt happens; if the first attempt raises,
the exception is swallowed and exactly one retry is made with the unquoted
path; if the retry also raises, the exception's text is returned as the output
value — `put` is total and never propagates the failure. -/
theorem put_retry_spec (attempt : String → Except String (Option String)) (p : String) :
    ((put attempt p).2.head? = some (pathQuote p)) ∧
    (∀ o, attempt (pathQuote p) = .ok o → put attempt p = (o.getD "", [pathQuote p])) ∧
    (∀ e, attempt (pathQuote p) = .error e → (put attempt p).2 = [pathQuote p, p]) ∧
    (∀ e e2, attempt (pathQuote p) = .error e → attempt p = .error e2 →
      (put attempt p).1 = e2) := by
  refine ⟨?_, ?_, ?_, ?_⟩
  · cases hq : attempt (pathQuote p) with
    | ok o => simp [put, hq]
    | error e =>
      cases hp : attempt p with
      | ok o => simp [put, hq, hp]
      | error e2 => simp [put, hq, hp]
  · intro o ho
    simp [put, ho]
  · intro e he
    cases hp : attempt p with
    | ok o => simp [put, he, hp]
    | error e2 => simp [put, he, hp]
  · intro e e2 he hp
    simp [put, he, hp]

/-- Claim C6 witness: with a transfer that raises its path argument as the
exception text, both attempts are made in order and the second exception text
is returned. -/
theorem put_retry_spec_witness :
    (put (fun s => Except.error s) "p").2 = [pathQuote "p", "p"] ∧
    (put (fun s => Except.error s) "p").1 = "p" :=
  ⟨(put_retry_spec (fun s => Except.error s) "p").2.2.1 (pathQuote "p") rfl,
   (put_retry_spec (fun s => Except.error s) "p").2.2.2 (pathQuote "p") "p" rfl rfl⟩

/-- Auxiliary: assigning a key not yet present appends the entry. -/
theorem dictSet_new (d : PRDict) (k : PKey) (v : Option String)
    (h : ((d.map Prod.fst).contains k) = false) :
    dictSet d k v = d ++ [(k, v)] := by
  unfold dictSet
  rw [if_neg (by rw [h]; simp)]

/-- Claim C8: `LocalShell.run_pattern_response`, handed a non-empty caller
mapping in which neither the movement pattern nor the timeout sentinel is
already a key, assigns the two sentinel entries into the caller's own mapping
object, so after the call the caller's mapping has exactly those two entries
appended; `RemoteShell.run_pattern_response` copies the mapping into a fresh
`OrderedDict` and the caller's argument is unchanged. -/
theorem pattern_response_caller_mutation (d : PRDict)
    (hne : d ≠ [])
    (hmov : (((d.map Prod.fst).contains (PKey.pat MOVEMENT))) = false)
    (htmo : (((d.map Prod.fst).contains PKey.timeoutSentinel)) = false)
    (user pw : String) (password : Option String) (b : Bool) :
    (local_rpr_dict password (some d)).2
      = some (d ++ [(PKey.pat MOVEMENT, none), (PKey.timeoutSentinel, some CR)]) ∧
    (remote_rpr_dict user pw b (some d)).2 = some d := by
  refine ⟨?_, rfl⟩
  have h2 : (((d ++ [(PKey.pat MOVEMENT, none)]).map Prod.fst).contains
      PKey.timeoutSentinel) = false := by
    simp only [List.map_append, List.map_cons, List.map_nil]
    simp only [List.contains_eq_any_beq, List.any_append] at htmo ⊢
    rw [htmo]
    decide
  show some (dictSet (dictSet d (PKey.pat MOVEMENT) none) PKey.timeoutSentinel (some CR)) = _
  rw [dictSet_new d _ _ hmov, dictSet_new _ _ _ h2, List.append_assoc]
  rfl

/-- Claim C8 witness: a one-entry caller mapping is mutated by the local
engine and left untouched by the remote one. -/
theorem pattern_response_caller_mutation_witness :
    (local_rpr_dict (some "pw") (some [(PKey.pat "x", some "y")])).2
      = some ([(PKey.pat "x", some "y")]
          ++ [(PKey.pat MOVEMENT, none), (PKey.timeoutSentinel, some CR)]) ∧
    (remote_rpr_dict "bob" "pw" false (some [(PKey.pat "x", some "y")])).2
      = some [(PKey.pat "x", some "y")] :=
  pattern_response_caller_mutation [(PKey.pat "x", some "y")]
    (by decide) (by decide) (by decide) "bob" "pw" (some "pw") false

/-- Auxiliary: the concatenation of the lines produced by `splitlines` is the
input with every line-separator character removed (`\r\n` counts as one
boundary, both characters removed). -/
theorem splitlinesAux_flatten (s cur : List Char) :
    (splitlinesAux s cur).flatten = cur ++ s.filter (fun c => !isLineSep c) := by
  induction s, cur using splitlinesAux.induct with
  | case1 => simp [splitlinesAux]
  | case2 cur h => simp [splitlinesAux, h]
  | case3 cur rest ih =>
    rw [splitlinesAux]
    simp only [dite_eq_ite] at ih
    rw [if_pos rfl, List.flatten_cons, ih, List.nil_append]
    congr 1
    conv_rhs => rw [List.filter_cons]
    rw [if_neg (show ¬((fun c => !isLineSep c) '\x0d' = true) by decide)]
    rcases rest with _ | ⟨x, xs⟩
    · rw [if_neg (by simp)]
    · by_cases hx : x = '\n'
      · subst hx
        rw [if_pos (by simp)]
        conv_rhs => rw [List.filter_cons]
        rw [if_neg (show ¬((fun c => !isLineSep c) '\n' = true) by decide)]
        rfl
      · rw [if_neg (by simp [hx])]
  | case4 cur c rest hc hsep ih =>
    rw [splitlinesAux]
    rw [if_neg hc, if_pos hsep, List.flatten_cons, ih, List.nil_append]
    congr 1
    rw [List.filter_cons, if_neg (by simp [hsep])]
  | case5 cur c rest hc hsep ih =>
    rw [splitlinesAux]
    rw [if_neg hc, if_neg hsep, ih]
    rw [List.filter_cons, if_pos (by simp [hsep])]
    simp

/-- Auxiliary: the character data of a fold of string concatenations. -/
theorem foldl_append_data (L : List String) (acc : String) :
    (L.foldl (fun r s => r ++ s) acc).data = acc.data ++ (L.map String.data).flatten := by
  induction L generalizing acc with
  | nil => simp
  | cons a l ih => simp [ih, String.data_append]

/-- Auxiliary: the character data of `String.join`. -/
theorem stringJoin_data (L : List String) :
    (String.join L).data = (L.map String.data).flatten := by
  show (L.foldl (fun r s => r ++ s) "").data = _
  rw [foldl_append_data]
  rfl

/-- Claim C9: on the pattern-response path (a truthy `pattern_response`, or
`accept_defaults` per call or on the instance), `RemoteShell.run` returns the
accumulated fragments joined, split into lines, and re-concatenated with no
separator — the result is the joined output with every line-separator
character removed, hence contains none; the direct non-interactive path
returns the session output verbatim, newlines preserved. -/
theorem remote_run_strips_line_separators
    (patResp accArg accInst : Bool) (frags : List String) (before after : String) :
    ((patResp || accArg || accInst) = true →
      (remote_run_output patResp accArg accInst frags before after).data
        = (String.join frags).data.filter (fun c => !isLineSep c)) ∧
    ((patResp || accArg || accInst) = false →
      remote_run_output patResp accArg accInst frags before after
        = before ++ (if after.isEmpty then "" else after)) ∧
    (∀ c, c ∈ (remote_run_output true accArg accInst frags before after).data →
      isLineSep c = false) := by
  have key : ∀ (x y z : Bool), (x || y || z) = true →
      (remote_run_output x y z frags before after).data
        = (String.join frags).data.filter (fun c => !isLineSep c) := by
    intro x y z h
    unfold remote_run_output remote_rpr_output pySplitlines
    rw [h, if_pos rfl]
    rw [stringJoin_data, List.map_map]
    rw [show ((splitlinesAux (String.join frags).toList []).map (String.data ∘ String.mk))
        = splitlinesAux (String.join frags).toList [] from
      (List.map_congr_left (fun a _ => rfl)).trans (List.map_id _)]
    rw [splitlinesAux_flatten]
    rfl
  refine ⟨key patResp accArg accInst, ?_, ?_⟩
  · intro h
    unfold remote_run_output
    rw [h]
    rfl
  · intro c hc
    have := key true accArg accInst rfl
    rw [this] at hc
    have := List.of_mem_filter hc
    simpa using this

/-- Claim C9 witness: the two paths at concrete inputs. -/
theorem remote_run_strips_line_separators_witness :
    (remote_run_output true false false ["ab\r\n", "cd\n"] "x" "y").data
      = (String.join ["ab\r\n", "cd\n"]).data.filter (fun c => !isLineSep c) ∧
    remote_run_output false false false [] "hello\nworld\n" "$ "
      = "hello\nworld\n" ++ (if ("$ " : String).isEmpty then "" else "$ ") :=
  ⟨(remote_run_strips_line_separators true false false ["ab\r\n", "cd\n"] "x" "y").1 rfl,
   (remote_run_strips_line_separators false false false [] "hello\nworld\n" "$ ").2.1 rfl⟩

end Herringlib

namespace Herringlib

/-- Auxiliary: a match at the current position reports that position. -/
theorem fm_found (p : RePat) (left right : List Char) (pos : Nat)
    (h : matchHere p left right = true) :
    firstMatchFrom p left right pos = some pos := by
  unfold firstMatchFrom
  rw [if_pos h]

/-- Auxiliary: no match at the current position moves the scan one character
right. -/
theorem fm_step (p : RePat) (left : List Char) (c : Char) (rest : List Char) (pos : Nat)
    (h : matchHere p left (c :: rest) = false) :
    firstMatchFrom p left (c :: rest) pos = firstMatchFrom p (left ++ [c]) rest (pos + 1) := by
  conv_lhs => rw [firstMatchFrom]
  rw [if_neg (by simp [h])]

/-- Auxiliary: a pattern that needs a trigger character at the match position
finds no match in a text free of that trigger. -/
theorem fm_none_of_nohead (p : RePat) (bad : Char → Bool)
    (hhead : ∀ left c rest, bad c = false → matchHere p left (c :: rest) = false)
    (hnil : ∀ left, matchHere p left [] = false)
    (s : List Char) (hs : ∀ c ∈ s, bad c = false) :
    ∀ left pos, firstMatchFrom p left s pos = none := by
  induction s with
  | nil =>
    intro left pos
    unfold firstMatchFrom
    rw [if_neg (by simp [hnil left])]
  | cons c rest ih =>
    intro left pos
    rw [fm_step p left c rest pos (hhead left c rest (hs c (by simp)))]
    exact ih (fun x hx => hs x (by simp [hx])) _ _

/-- Auxiliary: the scan steps across a prefix free of the trigger
character. -/
theorem fm_step_skip (p : RePat) (bad : Char → Bool)
    (hhead : ∀ left c rest, bad c = false → matchHere p left (c :: rest) = false)
    (pre : List Char) (hpre : ∀ c ∈ pre, bad c = false) :
    ∀ left suffix pos, firstMatchFrom p left (pre ++ suffix) pos
      = firstMatchFrom p (left ++ pre) suffix (pos + pre.length) := by
  induction pre with
  | nil =>
    intro left suffix pos
    simp
  | cons c pre ih =>
    intro left suffix pos
    rw [List.cons_append, fm_step p left c (pre ++ suffix) pos
      (hhead left c _ (hpre c (by simp)))]
    rw [ih (fun x hx => hpre x (by simp [hx])) (left ++ [c]) suffix (pos + 1)]
    rw [show left ++ [c] ++ pre = left ++ c :: pre by simp,
      show pos + 1 + pre.length = pos + (c :: pre).length by simp [List.length_cons]; omega]

/-- Auxiliary: the local generic pattern needs `[` at the match position. -/
theorem matchHere_localGeneric_head (left : List Char) (c : Char) (rest : List Char)
    (h : (c == '[') = false) : matchHere .localGeneric left (c :: rest) = false := by
  unfold matchHere
  simp [h]

/-- Auxiliary: the remote generic pattern needs `[` at the match position. -/
theorem matchHere_remoteGeneric_head (left : List Char) (c : Char) (rest : List Char)
    (h : (c == '[') = false) : matchHere .remoteGeneric left (c :: rest) = false := by
  unfold matchHere
  simp [h]

/-- Auxiliary: the prompt pattern needs `[` at the match position. -/
theorem matchHere_pexpectPrompt_head (left : List Char) (c : Char) (rest : List Char)
    (h : (c == '[') = false) : matchHere .pexpectPrompt left (c :: rest) = false := by
  unfold matchHere pexpectTag
  have hc : ¬('[' = c) := fun he => by simp [he.symm] at h
  simp only [List.cons_append, stripLiteral, if_neg hc]

/-- Auxiliary: the movement pattern needs a control character at the match
position. -/
theorem matchHere_movement_head (left : List Char) (c : Char) (rest : List Char)
    (h : (c == '\x0d' || c == '\n' || c == '\x08' || c == '\x0c') = false) :
    matchHere .movement left (c :: rest) = false := by
  unfold matchHere
  simp only [List.head?]
  exact h

/-- Auxiliary: the remote sudo pattern needs `p` at the match position. -/
theorem matchHere_remoteSudo_head (u : String) (left : List Char) (c : Char)
    (rest : List Char) (h : (c == 'p') = false) :
    matchHere (.remoteSudo u) left (c :: rest) = false := by
  unfold matchHere remoteSudoPrefix startsWithLit
  have hc : ¬('p' = c) := fun he => by simp [he.symm] at h
  simp only [List.cons_append, stripLiteral, if_neg hc]

/-- Auxiliary: no pattern matches at the end of the text. -/
theorem matchHere_nil (p : RePat) (left : List Char) : matchHere p left [] = false := by
  cases p with
  | localGeneric => rfl
  | localSudo => rfl
  | remoteSudo u =>
    unfold matchHere remoteSudoPrefix startsWithLit
    simp [stripLiteral]
  | remoteGeneric => rfl
  | movement => rfl
  | pexpectPrompt => rfl

/-- Auxiliary: unpacking the user-name character constraint. -/
theorem promptUserChar_elim (c : Char) (h : promptUserChar c = true) :
    pyIsSpace c = false ∧ c ≠ '\x08' ∧
    c ∉ ['.', '^', '$', '*', '+', '?', '{', '}', '[', ']', '(', ')', '\\', '|'] := by
  have h2 := h
  unfold promptUserChar at h2
  simp only [Bool.and_eq_true, bne_iff_ne, Bool.not_eq_eq_eq_not, Bool.not_true,
    decide_eq_false_iff_not, decide_eq_true_eq] at h2
  exact ⟨h2.1.1, h2.1.2, h2.2⟩

/-- Auxiliary: an admitted user-name character is not an opening bracket. -/
theorem promptUserChar_not_bracket (c : Char) (h : promptUserChar c = true) :
    (c == '[') = false := by
  have h3 := (promptUserChar_elim c h).2.2
  simp only [List.mem_cons, not_or] at h3
  simp [h3.2.2.2.2.2.2.2.2.1]

/-- Auxiliary: an admitted user-name character is not a movement control
character. -/
theorem promptUserChar_not_movement (c : Char) (h : promptUserChar c = true) :
    (c == '\x0d' || c == '\n' || c == '\x08' || c == '\x0c') = false := by
  obtain ⟨h1, h2, _⟩ := promptUserChar_elim c h
  have d1 : c ≠ '\x0d' := fun he => by subst he; simp [pyIsSpace] at h1
  have d2 : c ≠ '\n' := fun he => by subst he; simp [pyIsSpace] at h1
  have d3 : c ≠ '\x0c' := fun he => by subst he; simp [pyIsSpace] at h1
  simp [d1, d2, d3, h2]

/-- Auxiliary: stripping a literal off itself plus a tail leaves the tail. -/
theorem stripLiteral_prepend (l t : List Char) : stripLiteral l (l ++ t) = some t := by
  induction l with
  | nil => rfl
  | cons a as ih => simp [stripLiteral, ih]

/-- Auxiliary: stripping a literal off exactly itself leaves nothing. -/
theorem stripLiteral_self (l : List Char) : stripLiteral l l = some [] := by
  have h := stripLiteral_prepend l []
  rwa [List.append_nil] at h

/-- Auxiliary: `\S+\:` succeeds on a non-space run followed by a colon. -/
theorem colonAfter_run (v : List Char) (hv : ∀ c ∈ v, pyIsSpace c = false) :
    ∀ t, colonAfter (v ++ ':' :: t) = true := by
  induction v with
  | nil =>
    intro t
    simp [colonAfter]
  | cons c v ih =>
    intro t
    rw [List.cons_append]
    unfold colonAfter
    rw [ih (fun x hx => hv x (by simp [hx])) t, hv c (by simp)]
    simp

/-- Auxiliary: every character of the prompt tail after the opening bracket
avoids a trigger set that excludes the user-name characters, `:` and space. -/
theorem tail_chars_ok (u : String) (hchar : ∀ c ∈ u.toList, promptUserChar c = true)
    (bad : Char → Bool) (hu : ∀ c, promptUserChar c = true → bad c = false)
    (hc1 : bad ':' = false) (hc2 : bad ' ' = false) :
    ∀ c ∈ u.toList ++ [':', ' '], bad c = false := by
  intro c hc
  rcases List.mem_append.1 hc with h1 | h1
  · exact hu c (hchar c h1)
  · simp only [List.mem_cons, List.not_mem_nil, or_false] at h1
    rcases h1 with rfl | rfl
    · exact hc1
    · exact hc2

/-- Auxiliary: the local generic accept-defaults pattern
`\[\S+\](?<!\[sudo\]) ` has no match anywhere in a sudo password prompt: the
only opening bracket starts `[sudo]`, where the negative lookbehind vetoes the
match. -/
theorem localGeneric_no_match_in_prompt (u : String)
    (hchar : ∀ c ∈ u.toList, promptUserChar c = true) :
    firstMatchIdx .localGeneric (sudoPromptText u) = none := by
  unfold firstMatchIdx
  rw [show sudoPromptText u
      = '[' :: (sudoPromptPrefixTail ++ (u.toList ++ [':', ' '])) by
    simp [sudoPromptText, sudoPromptPrefix]]
  rw [fm_step _ _ _ _ _ (by rfl)]
  rw [fm_step_skip .localGeneric (fun c => c == '[') matchHere_localGeneric_head
    sudoPromptPrefixTail (by decide)]
  exact fm_none_of_nohead .localGeneric (fun c => c == '[') matchHere_localGeneric_head
    (fun left => matchHere_nil _ _) (u.toList ++ [':', ' '])
    (tail_chars_ok u hchar _ promptUserChar_not_bracket (by decide) (by decide)) _ _

/-- Auxiliary: the remote generic accept-defaults pattern
`\[\S+\](?<!\[sudo\])(?!\S)` has no match anywhere in a sudo password
prompt. -/
theorem remoteGeneric_no_match_in_prompt (u : String)
    (hchar : ∀ c ∈ u.toList, promptUserChar c = true) :
    firstMatchIdx .remoteGeneric (sudoPromptText u) = none := by
  unfold firstMatchIdx
  rw [show sudoPromptText u
      = '[' :: (sudoPromptPrefixTail ++ (u.toList ++ [':', ' '])) by
    simp [sudoPromptText, sudoPromptPrefix]]
  rw [fm_step _ _ _ _ _ (by rfl)]
  rw [fm_step_skip .remoteGeneric (fun c => c == '[') matchHere_remoteGeneric_head
    sudoPromptPrefixTail (by decide)]
  exact fm_none_of_nohead .remoteGeneric (fun c => c == '[') matchHere_remoteGeneric_head
    (fun left => matchHere_nil _ _) (u.toList ++ [':', ' '])
    (tail_chars_ok u hchar _ promptUserChar_not_bracket (by decide) (by decide)) _ _

/-- Auxiliary: the pxssh prompt pattern has no match in a sudo password
prompt. -/
theorem pexpectPrompt_no_match_in_prompt (u : String)
    (hchar : ∀ c ∈ u.toList, promptUserChar c = true) :
    firstMatchIdx .pexpectPrompt (sudoPromptText u) = none := by
  unfold firstMatchIdx
  rw [show sudoPromptText u
      = '[' :: (sudoPromptPrefixTail ++ (u.toList ++ [':', ' '])) by
    simp [sudoPromptText, sudoPromptPrefix]]
  rw [fm_step _ _ _ _ _ (by rfl)]
  rw [fm_step_skip .pexpectPrompt (fun c => c == '[') matchHere_pexpectPrompt_head
    sudoPromptPrefixTail (by decide)]
  exact fm_none_of_nohead .pexpectPrompt (fun c => c == '[') matchHere_pexpectPrompt_head
    (fun left => matchHere_nil _ _) (u.toList ++ [':', ' '])
    (tail_chars_ok u hchar _ promptUserChar_not_bracket (by decide) (by decide)) _ _

/-- Auxiliary: the movement pattern `(\r\n|[\r\n\b\f])` has no match in a sudo
password prompt (none of its control characters occur there). -/
theorem movement_no_match_in_prompt (u : String)
    (hchar : ∀ c ∈ u.toList, promptUserChar c = true) :
    firstMatchIdx .movement (sudoPromptText u) = none := by
  unfold firstMatchIdx
  rw [show sudoPromptText u
      = '[' :: (sudoPromptPrefixTail ++ (u.toList ++ [':', ' '])) by
    simp [sudoPromptText, sudoPromptPrefix]]
  rw [fm_step _ _ _ _ _ (by rfl)]
  rw [fm_step_skip .movement
    (fun c => c == '\x0d' || c == '\n' || c == '\x08' || c == '\x0c')
    matchHere_movement_head sudoPromptPrefixTail (by decide)]
  exact fm_none_of_nohead .movement
    (fun c => c == '\x0d' || c == '\n' || c == '\x08' || c == '\x0c')
    matchHere_movement_head (fun left => matchHere_nil _ _) (u.toList ++ [':', ' '])
    (tail_chars_ok u hchar _ promptUserChar_not_movement (by decide) (by decide)) _ _

/-- Auxiliary: the local sudo pattern `\[sudo\] password for \S+\:` matches the
sudo password prompt at position 0. -/
theorem localSudo_match_at_zero (u : String) (hne : u.toList ≠ [])
    (hchar : ∀ c ∈ u.toList, promptUserChar c = true) :
    firstMatchIdx .localSudo (sudoPromptText u) = some 0 := by
  unfold firstMatchIdx
  apply fm_found
  unfold matchHere sudoPromptText
  rw [List.append_assoc, stripLiteral_prepend]
  show scanNonspaceThenColon (u.toList ++ [':', ' ']) = true
  obtain ⟨c, u', hcu⟩ : ∃ c u', u.toList = c :: u' := by
    rcases h : u.toList with _ | ⟨c, u'⟩
    · exact absurd h hne
    · exact ⟨c, u', rfl⟩
  rw [hcu, List.cons_append]
  show (!pyIsSpace c && colonAfter (u' ++ [':', ' '])) = true
  rw [show (u' ++ [':', ' '] : List Char) = u' ++ ':' :: [' '] from rfl]
  rw [colonAfter_run u'
    (fun x hx => (promptUserChar_elim x (hchar x (by rw [hcu]; simp [hx]))).1) [' ']]
  rw [(promptUserChar_elim c (hchar c (by rw [hcu]; simp))).1]
  rfl

/-- Auxiliary: the remote sudo pattern `password for <user>: ` matches the sudo
password prompt at position 7, right after `[sudo] `. -/
theorem remoteSudo_match_at_seven (u : String) :
    firstMatchIdx (.remoteSudo u) (sudoPromptText u) = some 7 := by
  unfold firstMatchIdx
  rw [show sudoPromptText u
      = ['[', 's', 'u', 'd', 'o', ']', ' '] ++ (remoteSudoPrefix ++ u.toList ++ [':', ' ']) by
    simp [sudoPromptText, sudoPromptPrefix, sudoPromptPrefixTail]]
  rw [fm_step_skip (.remoteSudo u) (fun c => c == 'p') (matchHere_remoteSudo_head u)
    ['[', 's', 'u', 'd', 'o', ']', ' '] (by decide)]
  apply fm_found
  show (match stripLiteral (remoteSudoPrefix ++ u.toList ++ [':', ' '])
      (remoteSudoPrefix ++ u.toList ++ [':', ' ']) with
    | some _ => true
    | none => false) = true
  rw [stripLiteral_self]

/-- Claim C2: on the text a sudo password prompt emits (`[sudo] password for
<user>: `, for any non-empty user name of non-whitespace, non-control,
regex-metacharacter-free characters), the generic accept-default-prompt
pattern of both engines matches nowhere (the negative lookbehind keeps it off
the `[sudo]` prompt), the sudo-password pattern of each engine does match, and
pexpect's earliest-match/first-listed dispatch over each engine's default
table therefore selects the sudo entry and its password response — never the
generic carriage-return response — even though the local table lists the
generic pattern before the sudo pattern. -/
theorem sudo_prompt_not_shadowed (user pw : String)
    (hne : user.toList ≠ [])
    (hchar : ∀ c ∈ user.toList, promptUserChar c = true) :
    firstMatchIdx .localGeneric (sudoPromptText user) = none ∧
    firstMatchIdx .remoteGeneric (sudoPromptText user) = none ∧
    firstMatchIdx .localSudo (sudoPromptText user) = some 0 ∧
    firstMatchIdx (.remoteSudo user) (sudoPromptText user) = some 7 ∧
    expectDispatch (localDefaultTable pw) (sudoPromptText user)
      = some (1, some (pw ++ CR)) ∧
    expectDispatch (remoteDefaultTable user pw) (sudoPromptText user)
      = some (0, some (pw ++ "\r")) := by
  have hA := localGeneric_no_match_in_prompt user hchar
  have hD := remoteGeneric_no_match_in_prompt user hchar
  have hB := localSudo_match_at_zero user hne hchar
  have hC := remoteSudo_match_at_seven user
  have hE := movement_no_match_in_prompt user hchar
  have hF := pexpectPrompt_no_match_in_prompt user hchar
  refine ⟨hA, hD, hB, hC, ?_, ?_⟩
  · simp [expectDispatch, expectSelect, localDefaultTable, expectSelectAux,
      firstMatchOfEntry, hA, hB, hE]
  · simp [expectDispatch, expectSelect, remoteDefaultTable, expectSelectAux,
      firstMatchOfEntry, hC, hD, hE, hF]

/-- Claim C2 witness: the dispatch results for user `bob` and password `pw`. -/
theorem sudo_prompt_not_shadowed_witness :
    expectDispatch (localDefaultTable "pw") (sudoPromptText "bob")
      = some (1, some ("pw" ++ CR)) ∧
    expectDispatch (remoteDefaultTable "bob" "pw") (sudoPromptText "bob")
      = some (0, some ("pw" ++ "\r")) :=
  ⟨(sudo_prompt_not_shadowed "bob" "pw" (by decide) (by decide)).2.2.2.2.1,
   (sudo_prompt_not_shadowed "bob" "pw" (by decide) (by decide)).2.2.2.2.2⟩

/-- Claim C3 witness: the three clauses applied at concrete inputs. -/
theorem expand_args_spec_witness :
    expand_args ⟨some ["i"], some ["j"]⟩ ["x"] (some ["p"]) (some ["q"]) = ["p", "x", "q"] ∧
    expand_args ⟨some ["i"], some ["j"]⟩ ["x"] none none = ["i", "x", "j"] ∧
    expand_args ⟨none, none⟩ ["x"] none none = ["x"] :=
  ⟨(expand_args_spec ⟨some ["i"], some ["j"]⟩ ["x"] ["p"] ["q"]).1 (by decide) (by decide),
   (expand_args_spec ⟨some ["i"], some ["j"]⟩ ["x"] [] []).2.1 ["i"] ["j"] rfl rfl,
   (expand_args_spec ⟨none, none⟩ ["x"] [] []).2.2 rfl rfl⟩

end Herringlib
